import Mathlib

/-!  Verification model of the value-conversion engine of `explore-avro`
(`src/avro_value.rs`, `src/cli.rs`).

`Value` mirrors `apache_avro::types::Value`; `format_avro_value` and
`to_json` mirror the two conversion functions of `src/avro_value.rs`;
`AvroValue`, `AvroColumnarValue` and the per-row field projection mirror
`src/avro_value.rs` and `src/cli.rs`.  The external libraries the converter
calls (jiff, serde_json, num-bigint, uuid) are modelled from their
documented behaviour, each model carrying a doc comment saying what it
stands for. -/

/-- Error of a failed conversion.  In the source every library error is
erased to a `miette::Report` by `into_diagnostic`; the constructors here
record which interpretation step failed. -/
inductive ConvError
  | temporalRange
  | spanOverflow
  | spanRelative
deriving DecidableEq

/-- Modelled from jiff: a `Timestamp` is an instant, held here as
nanoseconds since the Unix epoch.  jiff bounds timestamps to
`-009999-01-02T01:59:59Z ..= 9999-12-30T22:00:00.999999999Z`,
that is seconds `-377705023201 ..= 253402207200`. -/
abbrev Timestamp := Int

/-- Modelled from jiff: `Timestamp::from_second`, failing outside the
supported instant range. -/
def Timestamp.from_second (s : Int) : Except ConvError Timestamp :=
  if -377705023201 ≤ s ∧ s ≤ 253402207200 then .ok (s * 1000000000)
  else .error .temporalRange

/-- Modelled from jiff: `Timestamp::from_millisecond`. -/
def Timestamp.from_millisecond (ms : Int) : Except ConvError Timestamp :=
  if -377705023201000 ≤ ms ∧ ms ≤ 253402207200999 then .ok (ms * 1000000)
  else .error .temporalRange

/-- Modelled from jiff: `Timestamp::from_microsecond`. -/
def Timestamp.from_microsecond (us : Int) : Except ConvError Timestamp :=
  if -377705023201000000 ≤ us ∧ us ≤ 253402207200999999 then .ok (us * 1000)
  else .error .temporalRange

/-- Modelled from jiff: `Timestamp::from_nanosecond`. -/
def Timestamp.from_nanosecond (ns : Int) : Except ConvError Timestamp :=
  if -377705023201000000000 ≤ ns ∧ ns ≤ 253402207200999999999 then .ok ns
  else .error .temporalRange

/-- Zero-pad a decimal numeral to `w` digits, as jiff's printers do. -/
def zeroPad (w n : Nat) : String :=
  let s := toString n
  String.mk (List.replicate (w - s.length) '0') ++ s

/-- Drop trailing zeros of a digit string (jiff prints subsecond
fractions without trailing zeros). -/
def trimTrailingZeros (s : String) : String :=
  ((s.toList.reverse.dropWhile (fun c => c = '0')).reverse).asString

/-- Fractional-second suffix: empty when the nanosecond part is zero. -/
def fracString (frac : Nat) : String :=
  if frac = 0 then "" else "." ++ trimTrailingZeros (zeroPad 9 frac)

/-- Modelled from jiff: day number relative to the Unix epoch to a
proleptic Gregorian date (Hinnant's `civil_from_days` algorithm). -/
def civilFromDays (day : Int) : Int × Nat × Nat :=
  let z := day + 719468
  let era := Int.fdiv z 146097
  let doe := (z - era * 146097).toNat
  let yoe := (doe - doe / 1460 + doe / 36524 - doe / 146096) / 365
  let y := (yoe : Int) + era * 400
  let doy := doe - (365 * yoe + yoe / 4 - yoe / 100)
  let mp := (5 * doy + 2) / 153
  let d := doy - (153 * mp + 2) / 5 + 1
  let m := if mp < 10 then mp + 3 else mp - 9
  (if m ≤ 2 then y + 1 else y, m, d)

/-- jiff prints years of the supported range as four digits, negative
years signed and padded to six digits. -/
def yearString (y : Int) : String :=
  if y < 0 then "-" ++ zeroPad 6 y.natAbs else zeroPad 4 y.natAbs

/-- Time-of-day part of jiff's temporal printers, from nanoseconds
within the day. -/
def timeOfDayString (ofDay : Nat) : String :=
  let s := ofDay / 1000000000
  zeroPad 2 (s / 3600) ++ ":" ++ zeroPad 2 (s / 60 % 60) ++ ":" ++
    zeroPad 2 (s % 60) ++ fracString (ofDay % 1000000000)

/-- Modelled from jiff: the civil date-time string of an instant, the
common part of `Timestamp` and `Zoned` display. -/
def Timestamp.civilString (ts : Timestamp) : String :=
  let day := Int.fdiv ts 86400000000000
  let ofDay := (Int.fmod ts 86400000000000).toNat
  let ymd := civilFromDays day
  yearString ymd.1 ++ "-" ++ zeroPad 2 ymd.2.1 ++ "-" ++ zeroPad 2 ymd.2.2 ++
    "T" ++ timeOfDayString ofDay

/-- Modelled from jiff: `Timestamp`'s `Display`, an RFC 3339 UTC instant
string. -/
def Timestamp.to_string (ts : Timestamp) : String :=
  Timestamp.civilString ts ++ "Z"

/-- Model of a resolved jiff `TimeZone` as the converter observes it: the
display string it gives a zoned instant (`to_zoned(tz).to_string()`).
The source resolves `TimeZone::try_system().unwrap_or(TimeZone::UTC)`
from the environment; here the resolved zone is an explicit parameter. -/
structure TimeZone where
  zonedString : Timestamp → String

/-- The UTC fallback zone: jiff prints a UTC zoned instant as the civil
string followed by `+00:00[UTC]`. -/
def TimeZone.utc : TimeZone :=
  ⟨fun ts => Timestamp.civilString ts ++ "+00:00[UTC]"⟩

/-- Modelled from jiff: `civil::Time::MIN.saturating_add` of a span of
the given number of nanoseconds, clamped to the bounds of a civil time
of day.  (For `TimeMicros` payloads beyond jiff's span-unit limits the
Rust code would abort inside `Span::microseconds`; the clamp extends the
model totally, which no claim depends on.) -/
def Time.min_saturating_add (ns : Int) : Nat :=
  if ns < 0 then 0 else min ns.toNat 86399999999999

/-- Modelled from jiff: `civil::Time`'s `Display`. -/
def Time.to_string (ofDay : Nat) : String :=
  timeOfDayString ofDay

/-- Modelled from jiff: ISO 8601 display of a span holding only a
millisecond component. -/
def spanMillisString (ms : Nat) : String :=
  if ms = 0 then "PT0S"
  else "PT" ++ toString (ms / 1000) ++
    (if ms % 1000 = 0 then "" else "." ++ trimTrailingZeros (zeroPad 3 (ms % 1000))) ++ "S"

/-- Modelled from jiff: the span computation of the `Duration` arm,
`Span::new().months(m).checked_add(days-span)?.checked_add(ms-span)?`.
`Span::months` and `Span::days` abort when the value exceeds the unit
limits (239976 months, 7304484 days); an abort likewise ends the
conversion and is modelled as an error.  Span addition involving
non-zero calendar units (days or greater) requires a relative datetime,
which the source never supplies, so such additions fail. -/
def durationSpanString (months days millis : Nat) : Except ConvError String :=
  if 239976 < months ∨ 7304484 < days then .error .spanOverflow
  else if months ≠ 0 ∨ days ≠ 0 then .error .spanRelative
  else .ok (spanMillisString millis)

/-- Modelled from the uuid crate: canonical hyphenated lowercase-hex
display of a 128-bit identifier. -/
def hexPad (w n : Nat) : String :=
  let s := (Nat.toDigits 16 n).asString
  String.mk (List.replicate (w - s.length) '0') ++ s

/-- Canonical 8-4-4-4-12 UUID string of a 128-bit value. -/
def uuidString (u : Nat) : String :=
  hexPad 8 (u / 2 ^ 96 % 2 ^ 32) ++ "-" ++ hexPad 4 (u / 2 ^ 80 % 2 ^ 16) ++ "-" ++
    hexPad 4 (u / 2 ^ 64 % 2 ^ 16) ++ "-" ++ hexPad 4 (u / 2 ^ 48 % 2 ^ 16) ++ "-" ++
    hexPad 12 (u % 2 ^ 48)

/-- Model of an IEEE-754 binary64 value by what the converter observes
of it: whether it is finite, and its exact value when it is.  `f32`
payloads use the same model; the source widens them to `f64` before any
fallible use. -/
inductive F64
  | finite (q : ℚ)
  | inf
  | neginf
  | nan
deriving DecidableEq

/-- Finiteness test, as used by `serde_json::Number::from_f64`. -/
def F64.isFinite : F64 → Bool
  | .finite _ => true
  | _ => false

/-- Model of Rust's `Display` for `f64`.  The shortest-roundtrip digit
algorithm of the finite case is not reproduced (no claim depends on it);
the non-finite spellings are Rust's. -/
def fmtF64 : F64 → String
  | .finite q => toString q
  | .inf => "inf"
  | .neginf => "-inf"
  | .nan => "NaN"

/-- Model of Rust's `Display` for `f32` (same abstraction as `f64`). -/
def fmtF32 : F64 → String := fmtF64

/-- Model of a `serde_json::Number`: an integer or a double. -/
inductive JNum
  | int (i : Int)
  | float (f : F64)
deriving DecidableEq

/-- Modelled from serde_json: `Number::from_f64` succeeds exactly on
finite values. -/
def JNum.from_f64 (d : F64) : Option JNum :=
  if d.isFinite then some (.float d) else none

/-- The substituted number `from_f64(0.0).unwrap()` of the source's
`unwrap_or` arms. -/
def zeroJsonNumber : JNum := .float (.finite 0)

/-- Model of `serde_json::Value`.  Objects keep their entries in
insertion order; the claims never depend on key ordering. -/
inductive Json
  | null
  | bool (b : Bool)
  | num (n : JNum)
  | str (s : String)
  | arr (elems : List Json)
  | obj (entries : List (String × Json))

/-- Mirror of `apache_avro::types::Value`, one constructor per variant.
Machine integers are `Int` (`i32`/`i64` payloads), `Nat` (`u32`/`u8`
payloads); `Decimal` carries the unscaled `BigInt` its byte payload
decodes to; `BigDecimal` carries the bigint and exponent returned by
`as_bigint_and_exponent`; `Map` keeps entries as a list in iteration
order. -/
inductive Value
  | null
  | boolean (b : Bool)
  | int (i : Int)
  | long (l : Int)
  | float (f : F64)
  | double (d : F64)
  | bytes (b : List Nat)
  | string (s : String)
  | fixed (size : Nat) (b : List Nat)
  | enum (id : Nat) (desc : String)
  | union (pos : Nat) (v : Value)
  | array (elems : List Value)
  | map (entries : List (String × Value))
  | record (fields : List (String × Value))
  | date (d : Int)
  | decimal (unscaled : Int)
  | bigDecimal (unscaled : Int) (scale : Int)
  | timeMillis (t : Int)
  | timeMicros (t : Int)
  | timestampMillis (t : Int)
  | timestampMicros (t : Int)
  | timestampNanos (t : Int)
  | localTimestampMillis (t : Int)
  | localTimestampMicros (t : Int)
  | localTimestampNanos (t : Int)
  | duration (months days millis : Nat)
  | uuid (u : Nat)

/-- The non-container, non-union variants ("leaves" of the tree). -/
def Value.isLeaf : Value → Bool
  | .array _ => false
  | .map _ => false
  | .record _ => false
  | .union _ _ => false
  | _ => true

/-- `NULL` constant of `src/avro_value.rs`. -/
def NULL : String := "null"

/-- `NA` constant of `src/avro_value.rs`. -/
def NA : String := "N/A"

mutual

/-- Model of `format_avro_value` (`src/avro_value.rs`): the recursive
display-rendering of a decoded value.  The resolved local time zone is
an explicit parameter (the source reads it from the environment at the
`LocalTimestamp*` arms). -/
def format_avro_value (tz : TimeZone) : Value → Except ConvError String
  | .array a => (format_avro_list tz a).map (fun l => String.intercalate ", " l)
  | .bytes b => .ok (String.intercalate ", " (b.map (fun n => toString n)))
  | .boolean b => .ok (toString b)
  | .double d => .ok (fmtF64 d)
  | .enum id desc => .ok (toString id ++ " (" ++ desc ++ ")")
  | .fixed _ f => .ok (String.intercalate ", " (f.map (fun n => toString n)))
  | .float f => .ok (fmtF32 f)
  | .int i => .ok (toString i)
  | .long l => .ok (toString l)
  | .map m => (format_avro_entries tz m).map (fun l => String.intercalate ", " l)
  | .null => .ok NULL
  | .record m => (format_avro_entries tz m).map (fun l => String.intercalate ", " l)
  | .string s => .ok s
  | .date s => (Timestamp.from_second s).map Timestamp.to_string
  | .decimal n => .ok (toString n)
  | .bigDecimal n _ => .ok (toString n)
  | .timeMillis ms => .ok (Time.to_string (Time.min_saturating_add (ms * 1000000)))
  | .timeMicros us => .ok (Time.to_string (Time.min_saturating_add (us * 1000)))
  | .timestampMillis ms => (Timestamp.from_millisecond ms).map Timestamp.to_string
  | .timestampMicros us => (Timestamp.from_millisecond us).map Timestamp.to_string
  | .timestampNanos ns => (Timestamp.from_millisecond ns).map Timestamp.to_string
  | .localTimestampMillis ms => (Timestamp.from_millisecond ms).map tz.zonedString
  | .localTimestampMicros us => (Timestamp.from_microsecond us).map tz.zonedString
  | .localTimestampNanos ns => (Timestamp.from_nanosecond ns).map tz.zonedString
  | .duration m d ms => durationSpanString m d ms
  | .uuid u => .ok (uuidString u)
  | .union _ v => format_avro_value tz v

/-- The `Array` arm's `collect::<Result<Vec<String>>>`: renders each
element, stopping at the first failure. -/
def format_avro_list (tz : TimeZone) : List Value → Except ConvError (List String)
  | [] => .ok []
  | v :: vs =>
    match format_avro_value tz v with
    | .error e => .error e
    | .ok s =>
      match format_avro_list tz vs with
      | .error e => .error e
      | .ok rest => .ok (s :: rest)

/-- The `Map`/`Record` arms' entry rendering: `"key: value"` per entry,
stopping at the first failure. -/
def format_avro_entries (tz : TimeZone) : List (String × Value) → Except ConvError (List String)
  | [] => .ok []
  | (k, v) :: rest =>
    match format_avro_value tz v with
    | .error e => .error e
    | .ok s =>
      match format_avro_entries tz rest with
      | .error e => .error e
      | .ok r => .ok ((k ++ ": " ++ s) :: r)

end

mutual

/-- Model of `to_json` (`src/avro_value.rs`): the recursive JSON
conversion of a decoded value. -/
def to_json (tz : TimeZone) : Value → Except ConvError Json
  | .array a => (to_json_list tz a).map Json.arr
  | .map m => (to_json_entries tz m).map Json.obj
  | .record m => (to_json_entries tz m).map Json.obj
  | .union _ v => to_json tz v
  | .null => .ok .null
  | .bytes b => .ok (.arr (b.map (fun n => Json.num (.int n))))
  | .boolean b => .ok (.bool b)
  | .double d => .ok (.num ((JNum.from_f64 d).getD zeroJsonNumber))
  | .float f => .ok (.num ((JNum.from_f64 f).getD zeroJsonNumber))
  | .enum _ desc => .ok (.str desc)
  | .fixed _ f => .ok (.arr (f.map (fun n => Json.num (.int n))))
  | .int i => .ok (.num (.int i))
  | .long l => .ok (.num (.int l))
  | .string s => .ok (.str s)
  | .uuid u => .ok (.str (uuidString u))
  | .date s => (Timestamp.from_second s).map (fun t => .str (Timestamp.to_string t))
  | .decimal n => .ok (.str (toString n))
  | .bigDecimal n _ => .ok (.str (toString n))
  | .timeMillis ms => .ok (.str (Time.to_string (Time.min_saturating_add (ms * 1000000))))
  | .timeMicros us => .ok (.str (Time.to_string (Time.min_saturating_add (us * 1000))))
  | .timestampMillis ms => (Timestamp.from_millisecond ms).map (fun t => .str (Timestamp.to_string t))
  | .timestampMicros us => (Timestamp.from_millisecond us).map (fun t => .str (Timestamp.to_string t))
  | .timestampNanos ns => (Timestamp.from_millisecond ns).map (fun t => .str (Timestamp.to_string t))
  | .localTimestampMillis ms => (Timestamp.from_millisecond ms).map (fun t => .str (tz.zonedString t))
  | .localTimestampMicros us => (Timestamp.from_microsecond us).map (fun t => .str (tz.zonedString t))
  | .localTimestampNanos ns => (Timestamp.from_nanosecond ns).map (fun t => .str (tz.zonedString t))
  | .duration m d ms => (durationSpanString m d ms).map Json.str

/-- The `Array` arm's element conversion, stopping at the first
failure. -/
def to_json_list (tz : TimeZone) : List Value → Except ConvError (List Json)
  | [] => .ok []
  | v :: vs =>
    match to_json tz v with
    | .error e => .error e
    | .ok j =>
      match to_json_list tz vs with
      | .error e => .error e
      | .ok rest => .ok (j :: rest)

/-- The `Map`/`Record` arms' entry conversion, stopping at the first
failure. -/
def to_json_entries (tz : TimeZone) : List (String × Value) → Except ConvError (List (String × Json))
  | [] => .ok []
  | (k, v) :: rest =>
    match to_json tz v with
    | .error e => .error e
    | .ok j =>
      match to_json_entries tz rest with
      | .error e => .error e
      | .ok r => .ok ((k, j) :: r)

end

/-- Mirror of `AvroValue` (`src/avro_value.rs`): a decoded value or the
"field absent" sentinel. -/
inductive AvroValue
  | value (v : Value)
  | na

/-- `AvroValue::from`. -/
def AvroValue.from (v : Value) : AvroValue := .value v

/-- Model of `AvroValue::to_string` through the `Display`
implementation: the `Na` sentinel prints `NA`, a value prints its
rendering.  A rendering failure becomes `fmt::Error` (which carries no
payload, hence `Except Unit`); `format!` then aborts rather than
producing a string. -/
def AvroValue.to_string (tz : TimeZone) : AvroValue → Except Unit String
  | .value v => (format_avro_value tz v).mapError (fun _ => ())
  | .na => .ok NA

/-- Model of `AvroValue::to_json` (named `toJson` here only because the
bare source name would shadow the free function it calls). -/
def AvroValue.toJson (tz : TimeZone) : AvroValue → Except ConvError Json
  | .na => .ok .null
  | .value v => to_json tz v

/-- Mirror of `AvroColumnarValue` (`src/cli.rs`): a Column Binding. -/
structure AvroColumnarValue where
  name : String
  value : AvroValue

/-- Model of the per-row field projection inside `CliService::get_fields`
(`src/cli.rs` lines 127-143): one binding per requested name, in request
order, `find`-ing the field by exact name equality. -/
def get_fields_row (fields : List (String × Value)) (fields_to_get : List String) :
    List AvroColumnarValue :=
  fields_to_get.map (fun field_name =>
    match fields.find? (fun p => p.1 == field_name) with
    | some p => { name := p.1, value := .value p.2 }
    | none => { name := field_name, value := .na })

/-! ## Verified properties -/

/-- C1: Union transparency: for every branch index and every value, both
`format_avro_value` and `to_json` of `Union(i, v)` equal the conversion
of `v`; the branch index never influences either output. -/
theorem union_transparent (tz : TimeZone) (i : Nat) (v : Value) :
    format_avro_value tz (.union i v) = format_avro_value tz v ∧
    to_json tz (.union i v) = to_json tz v :=
  ⟨by simp [format_avro_value], by simp [to_json]⟩

/-- C10: the microsecond and nanosecond timestamp variants are
interpreted at millisecond resolution: both converters send
`TimestampMicros x` and `TimestampNanos x` to exactly the output of
`TimestampMillis x`. -/
theorem timestamp_unit_collapse (tz : TimeZone) (x : Int) :
    format_avro_value tz (.timestampMicros x) = format_avro_value tz (.timestampMillis x) ∧
    format_avro_value tz (.timestampNanos x) = format_avro_value tz (.timestampMillis x) ∧
    to_json tz (.timestampMicros x) = to_json tz (.timestampMillis x) ∧
    to_json tz (.timestampNanos x) = to_json tz (.timestampMillis x) := by
  refine ⟨?_, ?_, ?_, ?_⟩ <;> simp [format_avro_value, to_json]

/-- C8: sentinel encodings: rendering `Absent` gives the literal
`"N/A"` and its JSON is `null`; rendering `Null` gives the literal
`"null"` and its JSON is `null`. -/
theorem sentinel_encodings (tz : TimeZone) :
    AvroValue.to_string tz .na = .ok "N/A" ∧
    AvroValue.toJson tz .na = .ok .null ∧
    format_avro_value tz .null = .ok "null" ∧
    to_json tz .null = .ok .null ∧
    AvroValue.to_string tz (.value .null) = .ok "null" ∧
    AvroValue.toJson tz (.value .null) = .ok .null := by
  refine ⟨rfl, rfl, ?_, ?_, ?_, ?_⟩ <;>
    simp [format_avro_value, to_json, AvroValue.to_string, AvroValue.toJson,
      Except.mapError, NULL, NA]

/-- C5: Decimal/BigDecimal scale discard: both converters render only
the unscaled integer as decimal text (`toJSON` as a JSON string of the
same digits); the `BigDecimal` scale never influences the output, so a
value meant to be 1.23 (unscaled 123, scale 2) renders as `"123"`. -/
theorem decimal_scale_discarded (tz : TimeZone) (n e e2 : Int) :
    format_avro_value tz (.decimal n) = .ok (toString n) ∧
    to_json tz (.decimal n) = .ok (.str (toString n)) ∧
    format_avro_value tz (.bigDecimal n e) = .ok (toString n) ∧
    to_json tz (.bigDecimal n e) = .ok (.str (toString n)) ∧
    format_avro_value tz (.bigDecimal n e) = format_avro_value tz (.bigDecimal n e2) ∧
    to_json tz (.bigDecimal n e) = to_json tz (.bigDecimal n e2) ∧
    format_avro_value tz (.bigDecimal 123 2) = .ok "123" := by
  refine ⟨?_, ?_, ?_, ?_, ?_, ?_, ?_⟩
  all_goals simp only [format_avro_value, to_json]
  all_goals rfl

/-- C6 (counterexample): the claim that `render(Enum)` repeats the
symbol name twice fails: the first component is the numeric symbol
index, so `Enum(0, "A")` renders as `"0 (A)"`, not `"A (A)"`. -/
theorem enum_render_not_symbol_twice :
    format_avro_value TimeZone.utc (.enum 0 "A") = .ok "0 (A)" ∧
    format_avro_value TimeZone.utc (.enum 0 "A") ≠ .ok "A (A)" := by
  constructor
  · simp only [format_avro_value]
    rfl
  · simp only [format_avro_value, ne_eq, Except.ok.injEq]
    decide

/-- C6 (amended): rendering an `Enum` produces the numeric symbol index
followed by the symbol name in parentheses, `"<index> (<name>)"`, while
its JSON is a string holding just the symbol name. -/
theorem enum_render_index_and_symbol (tz : TimeZone) (i : Nat) (s : String) :
    format_avro_value tz (.enum i s) = .ok (toString i ++ " (" ++ s ++ ")") ∧
    to_json tz (.enum i s) = .ok (.str s) := by
  constructor <;> simp [format_avro_value, to_json]

/-- C7: non-finite float substitution: `toJSON` of a `Float32` or
`Float64` always yields a JSON number; when the value is NaN or
infinite the number substituted is `from_f64(0.0).unwrap()`; rendering
of float leaves is total and applies the display formatter directly,
never substituting. -/
theorem float_json_substitution (tz : TimeZone) (x : F64) :
    (∃ n, to_json tz (.double x) = .ok (.num n)) ∧
    (∃ n, to_json tz (.float x) = .ok (.num n)) ∧
    (x.isFinite = false →
      to_json tz (.double x) = .ok (.num zeroJsonNumber) ∧
      to_json tz (.float x) = .ok (.num zeroJsonNumber)) ∧
    format_avro_value tz (.double x) = .ok (fmtF64 x) ∧
    format_avro_value tz (.float x) = .ok (fmtF32 x) := by
  refine ⟨⟨(JNum.from_f64 x).getD zeroJsonNumber, by simp [to_json]⟩,
    ⟨(JNum.from_f64 x).getD zeroJsonNumber, by simp [to_json]⟩, ?_, ?_, ?_⟩
  · intro hx
    constructor <;> simp [to_json, JNum.from_f64, hx]
  · simp [format_avro_value]
  · simp [format_avro_value]

/-- C7 (witness): instantiated at NaN with the UTC zone. -/
theorem float_json_substitution_witness :
    F64.nan.isFinite = false ∧
    (to_json TimeZone.utc (.double .nan) = .ok (.num zeroJsonNumber) ∧
     to_json TimeZone.utc (.float .nan) = .ok (.num zeroJsonNumber)) :=
  ⟨rfl, (float_json_substitution TimeZone.utc .nan).2.2.1 rfl⟩

/-- C2 (counterexample): the cross-consistency law fails on `Enum`:
`toJSON(Enum(0, "A"))` is the JSON string `"A"` while
`render(Enum(0, "A"))` is `"0 (A)"`. -/
theorem leaf_cross_consistency_fails_on_enum :
    to_json TimeZone.utc (.enum 0 "A") = .ok (.str "A") ∧
    format_avro_value TimeZone.utc (.enum 0 "A") = .ok "0 (A)" ∧
    "0 (A)" ≠ "A" := by
  refine ⟨by simp [to_json], ?_, by decide⟩
  simp only [format_avro_value]
  rfl

/-- C2 (amended): for every non-container leaf variant other than
`Enum`, whenever `to_json` yields a JSON string, that string is exactly
the string `format_avro_value` renders. -/
theorem leaf_cross_consistency_amended (tz : TimeZone) (v : Value)
    (hleaf : v.isLeaf = true) (henum : ∀ i s, v ≠ .enum i s)
    (s : String) (hj : to_json tz v = .ok (.str s)) :
    format_avro_value tz v = .ok s := by
  cases v with
  | enum i sym => exact absurd rfl (henum i sym)
  | array a => simp [Value.isLeaf] at hleaf
  | map m => simp [Value.isLeaf] at hleaf
  | record m => simp [Value.isLeaf] at hleaf
  | union i w => simp [Value.isLeaf] at hleaf
  | null => simp [to_json] at hj
  | boolean b => simp [to_json] at hj
  | int i => simp [to_json] at hj
  | long l => simp [to_json] at hj
  | float f => simp [to_json] at hj
  | double d => simp [to_json] at hj
  | bytes b => simp [to_json] at hj
  | fixed n b => simp [to_json] at hj
  | string t =>
    simp [to_json] at hj
    simp [format_avro_value, hj]
  | decimal n =>
    simp [to_json] at hj
    simp [format_avro_value, hj]
  | bigDecimal n e =>
    simp [to_json] at hj
    simp [format_avro_value, hj]
  | uuid u =>
    simp [to_json] at hj
    simp [format_avro_value, hj]
  | timeMillis t =>
    simp [to_json] at hj
    simp [format_avro_value, hj]
  | timeMicros t =>
    simp [to_json] at hj
    simp [format_avro_value, hj]
  | date t =>
    cases h : Timestamp.from_second t with
    | error e => simp [to_json, h, Except.map] at hj
    | ok x =>
      simp [to_json, h, Except.map] at hj
      simp [format_avro_value, h, Except.map, hj]
  | timestampMillis t =>
    cases h : Timestamp.from_millisecond t with
    | error e => simp [to_json, h, Except.map] at hj
    | ok x =>
      simp [to_json, h, Except.map] at hj
      simp [format_avro_value, h, Except.map, hj]
  | timestampMicros t =>
    cases h : Timestamp.from_millisecond t with
    | error e => simp [to_json, h, Except.map] at hj
    | ok x =>
      simp [to_json, h, Except.map] at hj
      simp [format_avro_value, h, Except.map, hj]
  | timestampNanos t =>
    cases h : Timestamp.from_millisecond t with
    | error e => simp [to_json, h, Except.map] at hj
    | ok x =>
      simp [to_json, h, Except.map] at hj
      simp [format_avro_value, h, Except.map, hj]
  | localTimestampMillis t =>
    cases h : Timestamp.from_millisecond t with
    | error e => simp [to_json, h, Except.map] at hj
    | ok x =>
      simp [to_json, h, Except.map] at hj
      simp [format_avro_value, h, Except.map, hj]
  | localTimestampMicros t =>
    cases h : Timestamp.from_microsecond t with
    | error e => simp [to_json, h, Except.map] at hj
    | ok x =>
      simp [to_json, h, Except.map] at hj
      simp [format_avro_value, h, Except.map, hj]
  | localTimestampNanos t =>
    cases h : Timestamp.from_nanosecond t with
    | error e => simp [to_json, h, Except.map] at hj
    | ok x =>
      simp [to_json, h, Except.map] at hj
      simp [format_avro_value, h, Except.map, hj]
  | duration m d ms =>
    cases h : durationSpanString m d ms with
    | error e => simp [to_json, h, Except.map] at hj
    | ok x =>
      simp [to_json, h, Except.map] at hj
      simp [format_avro_value, h, hj]

/-- C2 (witness): instantiated at a `Uuid` leaf with the UTC zone. -/
theorem leaf_cross_consistency_amended_witness :
    Value.isLeaf (.uuid 1) = true ∧
    to_json TimeZone.utc (.uuid 1) = .ok (.str (uuidString 1)) ∧
    format_avro_value TimeZone.utc (.uuid 1) = .ok (uuidString 1) :=
  ⟨rfl, by simp [to_json],
    leaf_cross_consistency_amended TimeZone.utc (.uuid 1) rfl
      (fun i s h => Value.noConfusion h) (uuidString 1) (by simp [to_json])⟩

/-- Rendering a list with a failing element fails (first failure
wins). -/
theorem format_avro_list_surfaces_error (tz : TimeZone) (v : Value) (e : ConvError)
    (h : format_avro_value tz v = .error e) :
    ∀ xs ys, ∃ e2, format_avro_list tz (xs ++ v :: ys) = .error e2 := by
  intro xs
  induction xs with
  | nil =>
    intro ys
    exact ⟨e, by simp [format_avro_list, h]⟩
  | cons x xs ih =>
    intro ys
    cases hx : format_avro_value tz x with
    | error e3 => exact ⟨e3, by simp [format_avro_list, hx]⟩
    | ok sx =>
      obtain ⟨e2, he2⟩ := ih ys
      exact ⟨e2, by simp [format_avro_list, hx, he2]⟩

/-- Rendering an entry list with a failing entry value fails. -/
theorem format_avro_entries_surfaces_error (tz : TimeZone) (v : Value) (e : ConvError)
    (h : format_avro_value tz v = .error e) (k : String) :
    ∀ xs ys, ∃ e2, format_avro_entries tz (xs ++ (k, v) :: ys) = .error e2 := by
  intro xs
  induction xs with
  | nil =>
    intro ys
    exact ⟨e, by simp [format_avro_entries, h]⟩
  | cons x xs ih =>
    intro ys
    obtain ⟨k2, w⟩ := x
    cases hx : format_avro_value tz w with
    | error e3 => exact ⟨e3, by simp [format_avro_entries, hx]⟩
    | ok sx =>
      obtain ⟨e2, he2⟩ := ih ys
      exact ⟨e2, by simp [format_avro_entries, hx, he2]⟩

/-- C3: error propagation in rendering: an out-of-range
`TimestampMillis` makes both converters fail with the temporal range
error rather than producing a substitute value, and any value whose
rendering fails makes every containing `Array` or `Record` rendering
fail too, as well as the `AvroValue` display wrapper. -/
theorem render_error_propagation (tz : TimeZone) (ms : Int)
    (hms : ms < -377705023201000 ∨ 253402207200999 < ms) :
    format_avro_value tz (.timestampMillis ms) = .error .temporalRange ∧
    to_json tz (.timestampMillis ms) = .error .temporalRange ∧
    (∀ v e, format_avro_value tz v = .error e →
      (∀ xs ys, ∃ e2, format_avro_value tz (.array (xs ++ v :: ys)) = .error e2) ∧
      (∀ k xs ys, ∃ e2, format_avro_value tz (.record (xs ++ (k, v) :: ys)) = .error e2) ∧
      AvroValue.to_string tz (.value v) = .error ()) := by
  have hcond : ¬(-377705023201000 ≤ ms ∧ ms ≤ 253402207200999) := by omega
  have hfm : Timestamp.from_millisecond ms = .error .temporalRange := by
    simp only [Timestamp.from_millisecond]
    rw [if_neg hcond]
  refine ⟨by simp [format_avro_value, hfm, Except.map],
    by simp [to_json, hfm, Except.map], ?_⟩
  intro v e he
  refine ⟨?_, ?_, ?_⟩
  · intro xs ys
    obtain ⟨e2, he2⟩ := format_avro_list_surfaces_error tz v e he xs ys
    exact ⟨e2, by simp [format_avro_value, he2, Except.map]⟩
  · intro k xs ys
    obtain ⟨e2, he2⟩ := format_avro_entries_surfaces_error tz v e he k xs ys
    exact ⟨e2, by simp [format_avro_value, he2, Except.map]⟩
  · simp [AvroValue.to_string, he, Except.mapError]

/-- C3 (witness): instantiated at a far out-of-range millisecond
count. -/
theorem render_error_propagation_witness :
    ((10 ^ 18 : Int) < -377705023201000 ∨ (253402207200999 : Int) < 10 ^ 18) ∧
    format_avro_value TimeZone.utc (.timestampMillis (10 ^ 18)) = .error .temporalRange :=
  ⟨Or.inr (by norm_num),
    (render_error_propagation TimeZone.utc (10 ^ 18) (Or.inr (by norm_num))).1⟩

/-- C4: the Date quirk: a `Date` day count is fed to the
seconds-since-epoch constructor, so for every `i32` day count `d` both
converters produce the full UTC instant string of the instant `d`
seconds after the epoch; in particular `Date d` converts exactly like
`TimestampMillis (1000 * d)`. -/
theorem date_seconds_quirk (tz : TimeZone) (d : Int)
    (h : -(2 ^ 31) ≤ d ∧ d < 2 ^ 31) :
    format_avro_value tz (.date d) = .ok (Timestamp.to_string (d * 1000000000)) ∧
    to_json tz (.date d) = .ok (.str (Timestamp.to_string (d * 1000000000))) ∧
    format_avro_value tz (.date d) = format_avro_value tz (.timestampMillis (1000 * d)) := by
  have hs : Timestamp.from_second d = .ok (d * 1000000000) := by
    simp only [Timestamp.from_second]
    have hc : -377705023201 ≤ d ∧ d ≤ 253402207200 := by omega
    rw [if_pos hc]
  have hm : Timestamp.from_millisecond (1000 * d) = .ok (1000 * d * 1000000) := by
    simp only [Timestamp.from_millisecond]
    have hc : -377705023201000 ≤ 1000 * d ∧ 1000 * d ≤ 253402207200999 := by omega
    rw [if_pos hc]
  have harith : 1000 * d * 1000000 = d * 1000000000 := by ring
  refine ⟨by simp [format_avro_value, hs, Except.map],
    by simp [to_json, hs, Except.map], ?_⟩
  simp [format_avro_value, hs, hm, Except.map, harith]

/-- C4 (witness): day count 1 renders as the instant one second after
the epoch. -/
theorem date_seconds_quirk_witness :
    (-(2 ^ 31 : Int) ≤ 1 ∧ (1 : Int) < 2 ^ 31) ∧
    format_avro_value TimeZone.utc (.date 1) = .ok (Timestamp.to_string (1 * 1000000000)) :=
  ⟨by norm_num, (date_seconds_quirk TimeZone.utc 1 (by norm_num)).1⟩

/-- Indexing the projected row: the binding at position `i` is the
projection of the requested name at position `i`. -/
theorem get_fields_row_getElem (fields : List (String × Value)) (req : List String)
    (i : Nat) :
    (get_fields_row fields req)[i]? = (req[i]?).map (fun field_name =>
      match fields.find? (fun p => p.1 == field_name) with
      | some p => { name := p.1, value := .value p.2 }
      | none => { name := field_name, value := .na }) := by
  simp [get_fields_row, List.getElem?_map]

/-- With record field names unique, `find?` by name returns exactly the
member with that name. -/
theorem find_field_of_mem (fields : List (String × Value)) (name : String) (v : Value)
    (hnd : (fields.map Prod.fst).Nodup) (hmem : (name, v) ∈ fields) :
    fields.find? (fun p => p.1 == name) = some (name, v) := by
  induction fields with
  | nil => cases hmem
  | cons p rest ih =>
    rw [List.map_cons, List.nodup_cons] at hnd
    rcases List.mem_cons.mp hmem with hm | hm
    · subst hm
      simp [List.find?_cons]
    · have hne : (p.1 == name) = false := by
        apply Bool.eq_false_iff.mpr
        intro hb
        have heq : p.1 = name := by simpa using hb
        apply hnd.1
        rw [heq]
        exact List.mem_map_of_mem Prod.fst hm
      simp only [List.find?_cons, hne]
      exact ih hnd.2 hm

/-- `find?` by a name no field carries returns nothing. -/
theorem find_field_of_not_mem (fields : List (String × Value)) (name : String)
    (hno : ∀ v, (name, v) ∉ fields) :
    fields.find? (fun p => p.1 == name) = none := by
  apply List.find?_eq_none.mpr
  intro x hx hpx
  obtain ⟨a, b⟩ := x
  have ha : a = name := by simpa using hpx
  subst ha
  exact hno b hx

/-- C9: field projection: the projected row has exactly one Column
Binding per requested name, in request order; with unique record field
names, a requested name carried by the record yields `Present` of its
value under that name, a name the record lacks yields `Absent`; and
equal requests (duplicates included) yield identical bindings. -/
theorem field_projection (fields : List (String × Value)) (req : List String)
    (hnodup : (fields.map Prod.fst).Nodup) :
    (get_fields_row fields req).length = req.length ∧
    (∀ (i : Nat) (name : String), req[i]? = some name →
      ((get_fields_row fields req)[i]?.map AvroColumnarValue.name = some name ∧
       (∀ v, (name, v) ∈ fields →
         (get_fields_row fields req)[i]? = some ⟨name, .value v⟩) ∧
       ((∀ v, (name, v) ∉ fields) →
         (get_fields_row fields req)[i]? = some ⟨name, .na⟩))) ∧
    (∀ i j : Nat, req[i]? = req[j]? →
      (get_fields_row fields req)[i]? = (get_fields_row fields req)[j]?) := by
  refine ⟨by simp [get_fields_row], ?_, ?_⟩
  · intro i name hi
    rw [get_fields_row_getElem, hi]
    refine ⟨?_, ?_, ?_⟩
    · cases hf : fields.find? (fun p => p.1 == name) with
      | none => simp [hf]
      | some p =>
        have hpt := List.find?_some hf
        have hpn : p.1 = name := by simpa using hpt
        simp [hf, hpn]
    · intro v hv
      simp only [Option.map_some']
      rw [find_field_of_mem fields name v hnodup hv]
    · intro hno
      simp only [Option.map_some']
      rw [find_field_of_not_mem fields name hno]
  · intro i j hij
    rw [get_fields_row_getElem, get_fields_row_getElem, hij]

/-- C9 (witness): a two-field record with `"age"` requested twice and a
missing name requested once. -/
theorem field_projection_witness :
    (([("firstName", Value.string "Marty"), ("age", Value.long 17)].map Prod.fst).Nodup) ∧
    (get_fields_row [("firstName", Value.string "Marty"), ("age", Value.long 17)]
      ["age", "nope", "age"]).length = (["age", "nope", "age"] : List String).length :=
  ⟨by decide, (field_projection _ _ (by decide)).1⟩
